import Mathlib

/-!
Verification of the AQI extraction pipeline (`data_extractor.py`, `main.py`,
`utils.py`): the PM2.5 breakpoint interpolation, NumPy-style rounding, the
batch partitioner, the forecast aggregation, the outer-join merge and the
orchestrator's pacing loop, shallowly embedded over `ℚ`, `ℤ` and `List`.
-/

namespace AdbPublicHealth

/-- Rounding of a rational to the nearest integer with ties to even, the
behavior of `np.round(x, 0)` (and of `np.round(series)`) used throughout
`data_extractor.py`. -/
def roundHalfEven (q : ℚ) : ℤ :=
  if q - (⌊q⌋ : ℚ) < 1/2 then ⌊q⌋
  else if 1/2 < q - (⌊q⌋ : ℚ) then ⌊q⌋ + 1
  else if ⌊q⌋ % 2 = 0 then ⌊q⌋ else ⌊q⌋ + 1

/-- Rounding to 1 decimal place, the behavior of `np.round(x, 1)` used by
`_format_concentration`. -/
def roundTo1 (q : ℚ) : ℚ := (roundHalfEven (10 * q) : ℚ) / 10

/-- PM2.5 breakpoint tuples `(I_low, I_high, C_low, C_high)` from
`DataExtractor._calculate_aqi`, the decimal literals read as rationals. -/
def breakpoints_pm25 : List (ℚ × ℚ × ℚ × ℚ) :=
  [(0, 50, 0, 9), (51, 100, 91/10, 354/10), (101, 150, 355/10, 554/10),
   (151, 200, 555/10, 1254/10), (201, 300, 1255/10, 2254/10),
   (301, 500, 2255/10, 5000)]

/-- Interpolation body of `_calculate_aqi`:
`(I_high - I_low) / (C_high - C_low) * (concentration - C_low) + I_low`. -/
def interpolate (b : ℚ × ℚ × ℚ × ℚ) (c : ℚ) : ℚ :=
  (b.2.1 - b.1) / (b.2.2.2 - b.2.2.1) * (c - b.2.2.1) + b.1

/-- Loop of `_calculate_aqi`: the first breakpoint whose range satisfies
`C_low <= concentration <= C_high` returns the interpolation; falling off the
end of the loop returns Python's implicit `None`, modelled as `none`. -/
def aqiLoop : List (ℚ × ℚ × ℚ × ℚ) → ℚ → Option ℚ
  | [], _ => none
  | b :: rest, c =>
      if b.2.2.1 ≤ c ∧ c ≤ b.2.2.2 then some (interpolate b c) else aqiLoop rest c

/-- `DataExtractor._calculate_aqi` from `data_extractor.py`. -/
def calculate_aqi (c : ℚ) : Option ℚ := aqiLoop breakpoints_pm25 c

/-- Unrolling of the six-iteration loop of `calculate_aqi` into an if-chain,
used by the proofs below. -/
theorem calculate_aqi_eq (c : ℚ) :
    calculate_aqi c =
      if 0 ≤ c ∧ c ≤ 9 then some ((50 - 0) / (9 - 0) * (c - 0) + 0)
      else if 91/10 ≤ c ∧ c ≤ 354/10 then
        some ((100 - 51) / (354/10 - 91/10) * (c - 91/10) + 51)
      else if 355/10 ≤ c ∧ c ≤ 554/10 then
        some ((150 - 101) / (554/10 - 355/10) * (c - 355/10) + 101)
      else if 555/10 ≤ c ∧ c ≤ 1254/10 then
        some ((200 - 151) / (1254/10 - 555/10) * (c - 555/10) + 151)
      else if 1255/10 ≤ c ∧ c ≤ 2254/10 then
        some ((300 - 201) / (2254/10 - 1255/10) * (c - 1255/10) + 201)
      else if 2255/10 ≤ c ∧ c ≤ 5000 then
        some ((500 - 301) / (5000 - 2255/10) * (c - 2255/10) + 301)
      else none := by
  simp only [calculate_aqi, aqiLoop, breakpoints_pm25, interpolate]

/-- C1: the code's `_calculate_aqi` silently returns Python `None` (modelled as
`none`) for concentrations in the inter-range gap (9.05), below 0.0, and above
5000, instead of raising `AqiUndefinedError` as the specification requires. -/
theorem calculate_aqi_gap_silent_none :
    calculate_aqi (905/100) = none ∧ calculate_aqi (-1) = none ∧
    calculate_aqi 5001 = none := by
  simp only [calculate_aqi_eq]
  norm_num

/-- C2: at every one of the six breakpoint tuples `(I_low, I_high, C_low,
C_high)`, `calculate_aqi C_low = I_low` and `calculate_aqi C_high = I_high`
exactly; in particular `calculate_aqi 9.1 = 51` and
`calculate_aqi 35.4 = 100`. -/
theorem calculate_aqi_breakpoint_endpoints :
    calculate_aqi 0 = some 0 ∧ calculate_aqi 9 = some 50 ∧
    calculate_aqi (91/10) = some 51 ∧ calculate_aqi (354/10) = some 100 ∧
    calculate_aqi (355/10) = some 101 ∧ calculate_aqi (554/10) = some 150 ∧
    calculate_aqi (555/10) = some 151 ∧ calculate_aqi (1254/10) = some 200 ∧
    calculate_aqi (1255/10) = some 201 ∧ calculate_aqi (2254/10) = some 300 ∧
    calculate_aqi (2255/10) = some 301 ∧ calculate_aqi 5000 = some 500 := by
  simp only [calculate_aqi_eq]
  norm_num

/-- Python's `list(range(0, total + 1, step))` for a positive `step`: the
`total / step + 1` ascending multiples of `step` that are `< total + 1`, as
built by `utils.separate_into_breakpoints`. -/
def pyRangeTo (total step : ℕ) : List ℕ := List.range' 0 (total / step + 1) step

/-- `utils.separate_into_breakpoints`: take `list(range(0, total + 1, step))`
and append `total` when the last element `breakpoints[-1]` differs from
`total`. -/
def separate_into_breakpoints (total step : ℕ) : List ℕ :=
  let breakpoints := pyRangeTo total step
  if breakpoints.getLast? = some total then breakpoints else breakpoints ++ [total]

/-- Last element of the underlying range: the largest multiple of `step` not
exceeding `total`. -/
theorem pyRangeTo_getLast (total step : ℕ) :
    (pyRangeTo total step).getLast? = some (step * (total / step)) := by
  rw [pyRangeTo, List.range'_concat, List.getLast?_concat, Nat.zero_add]

/-- Every element of the underlying range is a multiple of `step` that is at
most `total`. -/
theorem pyRangeTo_mem (total step : ℕ) {x : ℕ} (hx : x ∈ pyRangeTo total step) :
    step ∣ x ∧ x ≤ total := by
  rw [pyRangeTo, List.mem_range'] at hx
  obtain ⟨i, hi, rfl⟩ := hx
  refine ⟨⟨i, by ring⟩, ?_⟩
  calc 0 + step * i = step * i := by ring
    _ ≤ step * (total / step) :=
        Nat.mul_le_mul le_rfl (Nat.lt_succ_iff.mp hi)
    _ = total / step * step := Nat.mul_comm _ _
    _ ≤ total := Nat.div_mul_le_self total step

/-- C3: for every `total` and every `step ≥ 1`, `separate_into_breakpoints`
returns a strictly ascending list that starts at 0, ends exactly at `total`,
and contains only multiples of `step` apart from the possibly appended final
`total`; and it returns `[0, 20, 40, 45]`, `[0, 20, 40]` and `[0]` on the
spec's three examples. -/
theorem separate_into_breakpoints_spec (total step : ℕ) (hstep : 1 ≤ step) :
    List.Chain' (· < ·) (separate_into_breakpoints total step) ∧
    (separate_into_breakpoints total step).head? = some 0 ∧
    (separate_into_breakpoints total step).getLast? = some total ∧
    (∀ x ∈ separate_into_breakpoints total step,
        x ≤ total ∧ (step ∣ x ∨ x = total)) ∧
    separate_into_breakpoints 45 20 = [0, 20, 40, 45] ∧
    separate_into_breakpoints 40 20 = [0, 20, 40] ∧
    separate_into_breakpoints 0 20 = [0] := by
  have hpair : List.Pairwise (· < ·) (pyRangeTo total step) :=
    List.pairwise_lt_range' 0 (total / step + 1) step hstep
  have hhead : (pyRangeTo total step).head? = some 0 := by
    rw [pyRangeTo, List.range'_succ]
    rfl
  by_cases hlast : (pyRangeTo total step).getLast? = some total
  · have hres : separate_into_breakpoints total step = pyRangeTo total step := by
      rw [separate_into_breakpoints, if_pos hlast]
    refine ⟨?_, ?_, ?_, ?_, by decide, by decide, by decide⟩
    · rw [hres, List.chain'_iff_pairwise]
      exact hpair
    · rw [hres]
      exact hhead
    · rw [hres]
      exact hlast
    · intro x hx
      rw [hres] at hx
      have := pyRangeTo_mem total step hx
      exact ⟨this.2, Or.inl this.1⟩
  · have hlt : ∀ x ∈ pyRangeTo total step, x < total := by
      intro x hx
      have hmem := pyRangeTo_mem total step hx
      rcases Nat.lt_or_ge x total with h | h
      · exact h
      · exfalso
        have hxt : x = total := Nat.le_antisymm hmem.2 h
        apply hlast
        rw [pyRangeTo_getLast] at hlast ⊢
        rw [hxt] at hx
        have h2 := pyRangeTo_mem total step hx
        rcases Nat.lt_or_ge (step * (total / step)) total with h3 | h3
        · exfalso
          obtain ⟨k, hk⟩ := h2.1
          have hkle : k ≤ total / step := by
            have : total / step = k := by
              rw [hk]
              exact Nat.mul_div_cancel_left k hstep
            omega
          have : step * k ≤ step * (total / step) := Nat.mul_le_mul le_rfl hkle
          omega
        · have h4 : step * (total / step) ≤ total := by
            calc step * (total / step) = total / step * step := Nat.mul_comm _ _
              _ ≤ total := Nat.div_mul_le_self total step
          have : step * (total / step) = total := Nat.le_antisymm h4 h3
          rw [this]
    have hres : separate_into_breakpoints total step
        = pyRangeTo total step ++ [total] := by
      rw [separate_into_breakpoints, if_neg hlast]
    refine ⟨?_, ?_, ?_, ?_, by decide, by decide, by decide⟩
    · rw [hres, List.chain'_iff_pairwise, List.pairwise_append]
      exact ⟨hpair, List.pairwise_singleton _ _, fun a ha b hb => by
        rw [List.mem_singleton] at hb
        rw [hb]
        exact hlt a ha⟩
    · rw [hres, List.head?_append, hhead]
      rfl
    · rw [hres]
      exact List.getLast?_concat _
    · intro x hx
      rw [hres, List.mem_append] at hx
      rcases hx with hx | hx
      · have := pyRangeTo_mem total step hx
        exact ⟨this.2, Or.inl this.1⟩
      · rw [List.mem_singleton] at hx
        rw [hx]
        exact ⟨le_rfl, Or.inr rfl⟩

/-- Witness for C3: the guarantees evaluated at `total = 45`, `step = 20`. -/
theorem separate_into_breakpoints_spec_witness :
    List.Chain' (· < ·) (separate_into_breakpoints 45 20) ∧
    (separate_into_breakpoints 45 20).head? = some 0 ∧
    (separate_into_breakpoints 45 20).getLast? = some 45 ∧
    (∀ x ∈ separate_into_breakpoints 45 20, x ≤ 45 ∧ (20 ∣ x ∨ x = 45)) ∧
    separate_into_breakpoints 45 20 = [0, 20, 40, 45] ∧
    separate_into_breakpoints 40 20 = [0, 20, 40] ∧
    separate_into_breakpoints 0 20 = [0] :=
  separate_into_breakpoints_spec 45 20 (by decide)

/-- Row of the dataframes passed through `_format_concentration`: the union of
the columns of the current (`STUDENT_ID, LAT, LON, DT, PM25`) and forecast
(`..., PM25_TODAY, PM25_NEXT_DAY`) dataframes of `data_extractor.py`. -/
structure ConcRow where
  student_id : ℤ
  lat : ℚ
  lon : ℚ
  dt : ℤ
  pm25 : ℚ
  pm25_today : ℚ
  pm25_next_day : ℚ
deriving DecidableEq

/-- `DataExtractor._format_concentration`: under mode `current` round the
`PM25` column to 1 decimal place, under mode `forecast` round the
`PM25_TODAY` and `PM25_NEXT_DAY` columns to 1 decimal place; both guards are
independent `if` statements and any other mode leaves the dataframe as is. -/
def _format_concentration (df : List ConcRow) (ty : String) : List ConcRow :=
  let df1 := if ty = "current"
    then df.map (fun r => { r with pm25 := roundTo1 r.pm25 }) else df
  if ty = "forecast" then
    df1.map (fun r => { r with pm25_today := roundTo1 r.pm25_today,
                               pm25_next_day := roundTo1 r.pm25_next_day })
  else df1

/-- C8: in `current` mode the formatter rounds exactly the `PM25` field of
every record to 1 decimal place and leaves all six other fields unchanged; in
`forecast` mode it rounds exactly the `PM25_TODAY` and `PM25_NEXT_DAY` fields
independently and leaves all five other fields unchanged. -/
theorem format_concentration_rounds_only_target_fields (df : List ConcRow) :
    List.Forall₂ (fun r s => s.pm25 = roundTo1 r.pm25 ∧
      s.student_id = r.student_id ∧ s.lat = r.lat ∧ s.lon = r.lon ∧
      s.dt = r.dt ∧ s.pm25_today = r.pm25_today ∧
      s.pm25_next_day = r.pm25_next_day) df (_format_concentration df "current") ∧
    List.Forall₂ (fun r s => s.pm25_today = roundTo1 r.pm25_today ∧
      s.pm25_next_day = roundTo1 r.pm25_next_day ∧
      s.student_id = r.student_id ∧ s.lat = r.lat ∧ s.lon = r.lon ∧
      s.dt = r.dt ∧ s.pm25 = r.pm25) df (_format_concentration df "forecast") := by
  constructor
  · have hcur : _format_concentration df "current"
        = df.map (fun r => { r with pm25 := roundTo1 r.pm25 }) := by
      simp [_format_concentration]
    rw [hcur]
    clear hcur
    induction df with
    | nil => exact List.Forall₂.nil
    | cons r rest ih => exact List.Forall₂.cons ⟨rfl, rfl, rfl, rfl, rfl, rfl, rfl⟩ ih
  · have hfc : _format_concentration df "forecast"
        = df.map (fun r => { r with pm25_today := roundTo1 r.pm25_today,
                                    pm25_next_day := roundTo1 r.pm25_next_day }) := by
      simp [_format_concentration]
    rw [hfc]
    clear hfc
    induction df with
    | nil => exact List.Forall₂.nil
    | cons r rest ih => exact List.Forall₂.cons ⟨rfl, rfl, rfl, rfl, rfl, rfl, rfl⟩ ih

/-- C10: on any mode tag other than `current` and `forecast` the formatter
returns its input unchanged (both guards fail; no error is raised, unlike the
request-type dispatch of `_extract_from_owm`). -/
theorem format_concentration_unknown_mode_noop (df : List ConcRow) (ty : String)
    (h1 : ty ≠ "current") (h2 : ty ≠ "forecast") :
    _format_concentration df ty = df := by
  simp [_format_concentration, h1, h2]

/-- Witness for C10: the formatter is the identity on a concrete one-row
dataframe under the unrecognized mode tag `mean`. -/
theorem format_concentration_unknown_mode_noop_witness :
    _format_concentration [⟨1, 21, 105, 0, 5, 5, 5⟩] "mean"
      = [⟨1, 21, 105, 0, 5, 5, 5⟩] :=
  format_concentration_unknown_mode_noop [⟨1, 21, 105, 0, 5, 5, 5⟩] "mean"
    (by decide) (by decide)

/-- Hourly forecast row of `get_fc` at the `groupby` call: the
`(STUDENT_ID, LAT, LON)` key columns and the per-hour `AQI_TODAY` and
`AQI_NEXT_DAY` values (still rational, produced by `np.round(..., 0)`). -/
structure HourlyAqiRow where
  student_id : ℤ
  lat : ℚ
  lon : ℚ
  aqi_today : ℚ
  aqi_next_day : ℚ
deriving DecidableEq

/-- Output row of the aggregation step of `get_fc` after
`np.round(...).astype(int)` on both mean columns. -/
structure ForecastAqiRecord where
  student_id : ℤ
  lat : ℚ
  lon : ℚ
  aqi_today : ℤ
  aqi_next_day : ℤ
deriving DecidableEq

/-- Grouping key of `get_fc`: the `(STUDENT_ID, LAT, LON)` triple. -/
def fcKey (r : HourlyAqiRow) : ℤ × ℚ × ℚ := (r.student_id, r.lat, r.lon)

/-- Key triple of an aggregated output row. -/
def outKey (o : ForecastAqiRecord) : ℤ × ℚ × ℚ := (o.student_id, o.lat, o.lon)

/-- Arithmetic mean of a list of rationals, the `mean` aggregation of pandas
(`0` on the empty list, which never arises for a non-empty group). -/
def listMean (l : List ℚ) : ℚ := l.sum / (l.length : ℚ)

/-- Aggregation step of `get_fc`: group the hourly rows by
`(STUDENT_ID, LAT, LON)`, aggregate `AQI_TODAY` and `AQI_NEXT_DAY` by their
arithmetic mean, and round each mean to the nearest integer with
`np.round(...).astype(int)`. The sorted row order of the pandas groupby is not
modelled: keys are emitted in order of occurrence. -/
def aggregate_fc (df : List HourlyAqiRow) : List ForecastAqiRecord :=
  ((df.map fcKey).dedup).map (fun k =>
    let g := df.filter (fun r => fcKey r = k)
    { student_id := k.1, lat := k.2.1, lon := k.2.2,
      aqi_today := roundHalfEven (listMean (g.map (·.aqi_today))),
      aqi_next_day := roundHalfEven (listMean (g.map (·.aqi_next_day))) })

/-- C4: the aggregator emits exactly one row per unique
`(participant, lat, lon)` triple occurring in the input (its output keys are
duplicate-free and are exactly the input keys), every output row carries the
rounded arithmetic mean of its group's hourly values, and 23 constant hourly
values of 10 (today) and 20 (next day) aggregate to `AQI_TODAY = 10`,
`AQI_NEXT_DAY = 20`. -/
theorem aggregate_fc_spec (df : List HourlyAqiRow) :
    ((aggregate_fc df).map outKey).Nodup ∧
    (∀ k, k ∈ (aggregate_fc df).map outKey ↔ k ∈ df.map fcKey) ∧
    (∀ o ∈ aggregate_fc df,
        o.aqi_today = roundHalfEven (listMean
          ((df.filter (fun r => fcKey r = outKey o)).map (·.aqi_today))) ∧
        o.aqi_next_day = roundHalfEven (listMean
          ((df.filter (fun r => fcKey r = outKey o)).map (·.aqi_next_day)))) ∧
    aggregate_fc (List.replicate 23 ⟨1, 21, 105, 10, 20⟩)
      = [⟨1, 21, 105, 10, 20⟩] := by
  have hkeys : (aggregate_fc df).map outKey = (df.map fcKey).dedup := by
    simp only [aggregate_fc, List.map_map]
    have hl : ∀ l : List (ℤ × ℚ × ℚ), ∀ f : (ℤ × ℚ × ℚ) → ForecastAqiRecord,
        (∀ k, outKey (f k) = k) → l.map (outKey ∘ f) = l := by
      intro l f hf
      induction l with
      | nil => rfl
      | cons a t ih => simp only [List.map_cons, Function.comp_apply, hf, ih]
    exact hl _ _ (fun k => rfl)
  have hmean10 : listMean ((List.replicate 23
      (⟨1, 21, 105, 10, 20⟩ : HourlyAqiRow)).map (·.aqi_today)) = 10 := by
    rw [List.map_replicate, listMean, List.sum_replicate, List.length_replicate]
    norm_num
  have hmean20 : listMean ((List.replicate 23
      (⟨1, 21, 105, 10, 20⟩ : HourlyAqiRow)).map (·.aqi_next_day)) = 20 := by
    rw [List.map_replicate, listMean, List.sum_replicate, List.length_replicate]
    norm_num
  refine ⟨?_, ?_, ?_, ?_⟩
  · rw [hkeys]
    exact List.nodup_dedup _
  · intro k
    rw [hkeys]
    exact List.mem_dedup
  · intro o ho
    simp only [aggregate_fc] at ho
    obtain ⟨k, _, rfl⟩ := List.mem_map.mp ho
    exact ⟨rfl, rfl⟩
  · simp only [aggregate_fc, List.map_replicate]
    have hkey : fcKey ⟨1, 21, 105, 10, 20⟩ = ((1 : ℤ), (21 : ℚ), (105 : ℚ)) := rfl
    rw [hkey]
    have hded : (List.replicate 23 ((1 : ℤ), (21 : ℚ), (105 : ℚ))).dedup
        = [((1 : ℤ), (21 : ℚ), (105 : ℚ))] := by simp
    rw [hded, List.map_singleton]
    have hfil : (List.replicate 23 (⟨1, 21, 105, 10, 20⟩ : HourlyAqiRow)).filter
        (fun r => fcKey r = ((1 : ℤ), (21 : ℚ), (105 : ℚ)))
        = List.replicate 23 ⟨1, 21, 105, 10, 20⟩ := by
      simp [fcKey]
    congr 1
    show (⟨1, 21, 105,
        roundHalfEven (listMean (((List.replicate 23
          (⟨1, 21, 105, 10, 20⟩ : HourlyAqiRow)).filter
            (fun r => fcKey r = ((1 : ℤ), (21 : ℚ), (105 : ℚ)))).map (·.aqi_today))),
        roundHalfEven (listMean (((List.replicate 23
          (⟨1, 21, 105, 10, 20⟩ : HourlyAqiRow)).filter
            (fun r => fcKey r = ((1 : ℤ), (21 : ℚ), (105 : ℚ)))).map
              (·.aqi_next_day)))⟩ : ForecastAqiRecord) = ⟨1, 21, 105, 10, 20⟩
    rw [hfil, hmean10, hmean20]
    norm_num [roundHalfEven]

/-- Row of `get_rt`'s result at the merge in `main`: columns
`STUDENT_ID, LAT, LON, DT, PM25, AQI_CURRENT`. -/
structure CurrentAqiRecord where
  student_id : ℤ
  lat : ℚ
  lon : ℚ
  dt : ℤ
  pm25 : ℚ
  aqi_current : ℤ
deriving DecidableEq

/-- Row of `get_fc`'s result at the merge in `main`: columns
`STUDENT_ID, AQI_TODAY, AQI_NEXT_DAY`. -/
structure FcMergeRow where
  student_id : ℤ
  aqi_today : ℤ
  aqi_next_day : ℤ
deriving DecidableEq

/-- Row of `full = pd.merge(rt, fc, on=[STUDENT_ID], how=outer)`:
columns missing on one side of the join hold `NaN`, modelled `none`. -/
structure OutputRow where
  student_id : ℤ
  lat : Option ℚ
  lon : Option ℚ
  dt : Option ℤ
  pm25 : Option ℚ
  aqi_current : Option ℤ
  aqi_today : Option ℤ
  aqi_next_day : Option ℤ
deriving DecidableEq

/-- Output row contributed by a current-side row: forecast columns are filled
from the matching forecast row when one exists and are `NaN` otherwise. -/
def mergeLeftRow (fc : List FcMergeRow) (r : CurrentAqiRecord) : OutputRow :=
  match fc.find? (fun f => f.student_id = r.student_id) with
  | some f => ⟨r.student_id, some r.lat, some r.lon, some r.dt, some r.pm25,
               some r.aqi_current, some f.aqi_today, some f.aqi_next_day⟩
  | none => ⟨r.student_id, some r.lat, some r.lon, some r.dt, some r.pm25,
             some r.aqi_current, none, none⟩

/-- Output row contributed by a forecast-only row: all current columns `NaN`. -/
def mergeRightRow (f : FcMergeRow) : OutputRow :=
  ⟨f.student_id, none, none, none, none, none, some f.aqi_today, some f.aqi_next_day⟩

/-- Outer join of `main.py` line 46 on the participant identifier, under the
pipeline invariant that identifiers are unique on each side (a one-to-one
merge); the lexicographic key ordering pandas applies to outer merges is not
modelled. -/
def outerMergeOnStudentId (rt : List CurrentAqiRecord) (fc : List FcMergeRow) :
    List OutputRow :=
  rt.map (mergeLeftRow fc)
    ++ (fc.filter (fun f => !(rt.any (fun r => r.student_id = f.student_id)))).map
        mergeRightRow

/-- Left-contributed rows keep the participant identifier of their source. -/
theorem mergeLeftRow_student_id (fc : List FcMergeRow) (r : CurrentAqiRecord) :
    (mergeLeftRow fc r).student_id = r.student_id := by
  rw [mergeLeftRow]
  cases fc.find? (fun f => f.student_id = r.student_id) <;> rfl

/-- Count of key hits in a list whose keys are duplicate-free: 1 when the key
occurs, 0 otherwise. -/
theorem countP_key_nodup {α : Type} (key : α → ℤ) (l : List α)
    (hnd : (l.map key).Nodup) (sid : ℤ) :
    l.countP (fun a => key a = sid) = if sid ∈ l.map key then 1 else 0 := by
  induction l with
  | nil => simp
  | cons a t ih =>
    rw [List.map_cons, List.nodup_cons] at hnd
    rw [List.countP_cons, List.map_cons]
    simp only [List.mem_cons]
    by_cases h : key a = sid
    · have ht : t.countP (fun a => key a = sid) = 0 := by
        rw [List.countP_eq_zero]
        intro b hb
        simp only [decide_eq_true_eq]
        intro hbk
        exact hnd.1 (by rw [h, ← hbk]; exact List.mem_map_of_mem key hb)
      rw [ht, if_pos (by simp [h]), if_pos (Or.inl h.symm)]
    · rw [if_neg (by simp [h]), ih hnd.2, Nat.add_zero]
      by_cases hm : sid ∈ List.map key t
      · rw [if_pos hm, if_pos (Or.inr hm)]
      · rw [if_neg hm, if_neg (by rintro (hc | hc); exact h hc.symm; exact hm hc)]

/-- C5: under the pipeline invariant that participant identifiers are unique
on both sides, the outer-join merge emits exactly one row per participant
occurring on either side (and none for absent participants), rows of
current-only participants carry `none` in every forecast column, and rows of
forecast-only participants carry `none` in every current column. -/
theorem outer_merge_spec (rt : List CurrentAqiRecord) (fc : List FcMergeRow)
    (hrt : (rt.map (·.student_id)).Nodup) (hfc : (fc.map (·.student_id)).Nodup) :
    (∀ sid : ℤ,
      ((outerMergeOnStudentId rt fc).filter (fun o => o.student_id = sid)).length
        = if sid ∈ rt.map (·.student_id) ∨ sid ∈ fc.map (·.student_id)
          then 1 else 0) ∧
    (∀ o ∈ outerMergeOnStudentId rt fc,
      (o.student_id ∉ fc.map (·.student_id) →
        o.aqi_today = none ∧ o.aqi_next_day = none) ∧
      (o.student_id ∉ rt.map (·.student_id) →
        o.lat = none ∧ o.lon = none ∧ o.dt = none ∧ o.pm25 = none ∧
        o.aqi_current = none)) := by
  constructor
  · intro sid
    rw [← List.countP_eq_length_filter, outerMergeOnStudentId, List.countP_append,
      List.countP_map, List.countP_map]
    have hleft : rt.countP ((fun o => decide (o.student_id = sid)) ∘ mergeLeftRow fc)
        = rt.countP (fun r => r.student_id = sid) := by
      apply List.countP_congr
      intro r _
      simp [Function.comp, mergeLeftRow_student_id]
    rw [hleft, countP_key_nodup (·.student_id) rt hrt sid]
    have hright0 : ∀ q : FcMergeRow → Bool,
        (fc.filter q).countP ((fun o => decide (o.student_id = sid)) ∘ mergeRightRow)
          = (fc.filter q).countP (fun f => f.student_id = sid) := by
      intro q
      apply List.countP_congr
      intro f _
      simp [Function.comp, mergeRightRow]
    by_cases hin : sid ∈ rt.map (·.student_id)
    · rw [if_pos (Or.inl hin), hright0]
      have hz : (fc.filter
          (fun f => !(rt.any (fun r => r.student_id = f.student_id)))).countP
            (fun f => f.student_id = sid) = 0 := by
        rw [List.countP_eq_zero]
        intro f hf
        simp only [decide_eq_true_eq]
        intro hfs
        have hq : rt.any (fun r => r.student_id = f.student_id) = false := by
          simpa using List.of_mem_filter hf
        rw [List.any_eq_false] at hq
        obtain ⟨r, hr, hrk⟩ := List.mem_map.mp hin
        exact hq r hr (by simp [hrk, hfs])
      rw [hz, if_pos hin]
    · rw [if_neg hin, hright0]
      simp only [List.countP_filter]
      have hcong : fc.countP (fun f => decide (f.student_id = sid) &&
          !(rt.any (fun r => r.student_id = f.student_id)))
          = fc.countP (fun f => f.student_id = sid) := by
        apply List.countP_congr
        intro f _
        by_cases hp : f.student_id = sid
        · have hq : (!(rt.any (fun r => r.student_id = f.student_id))) = true := by
            simp only [Bool.not_eq_true', List.any_eq_false]
            intro r hr
            simp only [decide_eq_true_eq]
            intro hc
            exact hin (List.mem_map.mpr ⟨r, hr, by rw [hc, hp]⟩)
          rw [hq, Bool.and_true]
        · simp [hp]
      rw [hcong, countP_key_nodup (·.student_id) fc hfc sid]
      by_cases hfcm : sid ∈ fc.map (·.student_id)
      · rw [if_pos hfcm, if_pos (Or.inr hfcm)]
      · rw [if_neg hfcm, if_neg (fun hc => hc.elim hin hfcm)]
  · intro o ho
    rw [outerMergeOnStudentId, List.mem_append] at ho
    rcases ho with ho | ho
    · obtain ⟨r, hr, rfl⟩ := List.mem_map.mp ho
      constructor
      · intro hnot
        rw [mergeLeftRow_student_id] at hnot
        cases hfind : fc.find? (fun f => f.student_id = r.student_id) with
        | none => simp [mergeLeftRow, hfind]
        | some f =>
          exfalso
          apply hnot
          have hfmem := List.mem_of_find?_eq_some hfind
          have hfeq : f.student_id = r.student_id := by
            simpa using List.find?_some hfind
          rw [← hfeq]
          exact List.mem_map_of_mem (·.student_id) hfmem
      · intro hnot
        exfalso
        rw [mergeLeftRow_student_id] at hnot
        exact hnot (List.mem_map_of_mem (·.student_id) hr)
    · obtain ⟨f, hf, rfl⟩ := List.mem_map.mp ho
      have hffc : f ∈ fc := List.mem_of_mem_filter hf
      constructor
      · intro hnot
        exfalso
        exact hnot (List.mem_map_of_mem (·.student_id) hffc)
      · intro _
        exact ⟨rfl, rfl, rfl, rfl, rfl⟩

/-- Witness for C5: participant 1 has only a current row, participant 2 only
a forecast row, participant 3 both; the merge yields exactly one row for each
of the three and three rows in total, with the missing sides `none`. -/
theorem outer_merge_spec_witness :
    (((outerMergeOnStudentId
        [⟨1, 21, 105, 0, 5, 23⟩, ⟨3, 22, 106, 0, 6, 42⟩]
        [⟨3, 7, 9⟩, ⟨2, 11, 13⟩]).filter (fun o => o.student_id = 1)).length
      = 1) ∧
    (((outerMergeOnStudentId
        [⟨1, 21, 105, 0, 5, 23⟩, ⟨3, 22, 106, 0, 6, 42⟩]
        [⟨3, 7, 9⟩, ⟨2, 11, 13⟩]).filter (fun o => o.student_id = 2)).length
      = 1) ∧
    (((outerMergeOnStudentId
        [⟨1, 21, 105, 0, 5, 23⟩, ⟨3, 22, 106, 0, 6, 42⟩]
        [⟨3, 7, 9⟩, ⟨2, 11, 13⟩]).filter (fun o => o.student_id = 4)).length
      = 0) ∧
    (outerMergeOnStudentId
        [⟨1, 21, 105, 0, 5, 23⟩, ⟨3, 22, 106, 0, 6, 42⟩]
        [⟨3, 7, 9⟩, ⟨2, 11, 13⟩]).length = 3 ∧
    (outerMergeOnStudentId
        [⟨1, 21, 105, 0, 5, 23⟩, ⟨3, 22, 106, 0, 6, 42⟩]
        [⟨3, 7, 9⟩, ⟨2, 11, 13⟩]).map (fun o => (o.aqi_current, o.aqi_today))
      = [(some 23, none), (some 42, some 7), (none, some 11)] :=
  ⟨((outer_merge_spec _ _ (by decide) (by decide)).1 1).trans (by decide),
   ((outer_merge_spec _ _ (by decide) (by decide)).1 2).trans (by decide),
   ((outer_merge_spec _ _ (by decide) (by decide)).1 4).trans (by decide),
   by decide, by decide⟩

/-- Any AQI the interpolation produces lies within the index bounds of the
breakpoint table. -/
theorem calculate_aqi_bounds (c a : ℚ) (h : calculate_aqi c = some a) :
    0 ≤ a ∧ a ≤ 500 := by
  rw [calculate_aqi_eq] at h
  split_ifs at h with h1 h2 h3 h4 h5 h6
  · rw [Option.some.injEq] at h
    subst h
    constructor <;> linarith [h1.1, h1.2]
  · rw [Option.some.injEq] at h
    subst h
    constructor <;> linarith [h2.1, h2.2]
  · rw [Option.some.injEq] at h
    subst h
    constructor <;> linarith [h3.1, h3.2]
  · rw [Option.some.injEq] at h
    subst h
    constructor <;> linarith [h4.1, h4.2]
  · rw [Option.some.injEq] at h
    subst h
    constructor <;> linarith [h5.1, h5.2]
  · rw [Option.some.injEq] at h
    subst h
    constructor <;> linarith [h6.1, h6.2]

/-- Rounding to the nearest integer preserves nonnegativity. -/
theorem roundHalfEven_nonneg (q : ℚ) (h : 0 ≤ q) : 0 ≤ roundHalfEven q := by
  have hf : (0 : ℤ) ≤ ⌊q⌋ := Int.floor_nonneg.mpr h
  rw [roundHalfEven]
  split_ifs <;> omega

/-- AQI of one PM2.5 value as computed by `get_rt` (lines 221-223) and, per
hour, by `get_fc` (lines 267-269): format to 1 decimal place, interpolate,
round to the nearest integer and cast to int. -/
def aqiOfPm25 (pm : ℚ) : Option ℤ :=
  (calculate_aqi (roundTo1 pm)).map roundHalfEven

/-- Means of nonnegative values are nonnegative. -/
theorem listMean_nonneg (l : List ℚ) (h : ∀ x ∈ l, 0 ≤ x) : 0 ≤ listMean l := by
  rw [listMean]
  exact div_nonneg (List.sum_nonneg h) (Nat.cast_nonneg _)

/-- C6: whenever the per-reading AQI of the pipeline is defined (the formatted
concentration falls in some breakpoint range), it is a nonnegative integer,
and the aggregated `AQI_TODAY` / `AQI_NEXT_DAY` of `get_fc` are nonnegative
integers whenever the hourly values they average are nonnegative. -/
theorem pipeline_aqi_nonneg :
    (∀ pm a, aqiOfPm25 pm = some a → 0 ≤ a) ∧
    (∀ df : List HourlyAqiRow,
      (∀ r ∈ df, 0 ≤ r.aqi_today ∧ 0 ≤ r.aqi_next_day) →
      ∀ o ∈ aggregate_fc df, 0 ≤ o.aqi_today ∧ 0 ≤ o.aqi_next_day) := by
  constructor
  · intro pm a h
    cases hc : calculate_aqi (roundTo1 pm) with
    | none => rw [aqiOfPm25, hc] at h; exact Option.noConfusion h
    | some b =>
      rw [aqiOfPm25, hc, Option.map_some'] at h
      rw [Option.some.injEq] at h
      subst h
      exact roundHalfEven_nonneg b (calculate_aqi_bounds (roundTo1 pm) b hc).1
  · intro df hdf o ho
    simp only [aggregate_fc] at ho
    obtain ⟨k, _, rfl⟩ := List.mem_map.mp ho
    constructor
    · apply roundHalfEven_nonneg
      apply listMean_nonneg
      intro x hx
      obtain ⟨r, hr, rfl⟩ := List.mem_map.mp hx
      exact (hdf r (List.mem_of_mem_filter hr)).1
    · apply roundHalfEven_nonneg
      apply listMean_nonneg
      intro x hx
      obtain ⟨r, hr, rfl⟩ := List.mem_map.mp hx
      exact (hdf r (List.mem_of_mem_filter hr)).2

/-- Witness for C6: the current-AQI computation on the concentration 5.0
yields 28, which is nonnegative. -/
theorem pipeline_aqi_nonneg_witness :
    aqiOfPm25 5 = some 28 ∧ (0 : ℤ) ≤ 28 := by
  have hev : aqiOfPm25 5 = some 28 := by
    have h1 : roundTo1 5 = 5 := by
      rw [roundTo1]
      norm_num [roundHalfEven]
    have h2 : calculate_aqi 5 = some (250/9) := by
      rw [calculate_aqi_eq, if_pos (by norm_num)]
      norm_num
    rw [aqiOfPm25, h1, h2, Option.map_some']
    norm_num [roundHalfEven]
  exact ⟨hev, pipeline_aqi_nonneg.1 5 28 hev⟩

set_option maxHeartbeats 1600000 in
/-- C9: the AQI calculator is monotone on its defined domain: concentrations
that both match some breakpoint range map to AQI values in the same order. -/
theorem calculate_aqi_monotone (c1 c2 a1 a2 : ℚ) (hc : c1 ≤ c2)
    (h1 : calculate_aqi c1 = some a1) (h2 : calculate_aqi c2 = some a2) :
    a1 ≤ a2 := by
  rw [calculate_aqi_eq] at h1 h2
  split_ifs at h1 h2 with p1 p2 p3 p4 p5 p6 p7 p8 p9 p10 p11 p12
  all_goals rw [Option.some.injEq] at h1 h2
  all_goals subst h1
  all_goals subst h2
  all_goals try obtain ⟨u1, v1⟩ := p1
  all_goals try obtain ⟨u2, v2⟩ := p2
  all_goals try obtain ⟨u3, v3⟩ := p3
  all_goals try obtain ⟨u4, v4⟩ := p4
  all_goals try obtain ⟨u5, v5⟩ := p5
  all_goals try obtain ⟨u6, v6⟩ := p6
  all_goals try obtain ⟨u7, v7⟩ := p7
  all_goals try obtain ⟨u8, v8⟩ := p8
  all_goals try obtain ⟨u9, v9⟩ := p9
  all_goals try obtain ⟨u10, v10⟩ := p10
  all_goals try obtain ⟨u11, v11⟩ := p11
  all_goals try obtain ⟨u12, v12⟩ := p12
  all_goals linarith

/-- Witness for C9: 9.0 and 35.4 are both in range; their AQI values 50 and
100 are in order. -/
theorem calculate_aqi_monotone_witness :
    (9 : ℚ) ≤ 354/10 ∧ calculate_aqi 9 = some 50 ∧
    calculate_aqi (354/10) = some 100 ∧ (50 : ℚ) ≤ 100 :=
  ⟨by norm_num, by simp only [calculate_aqi_eq]; norm_num,
   by simp only [calculate_aqi_eq]; norm_num,
   calculate_aqi_monotone 9 (354/10) 50 100 (by norm_num)
     (by simp only [calculate_aqi_eq]; norm_num)
     (by simp only [calculate_aqi_eq]; norm_num)⟩

/-- Observable events of the orchestrator's outer loop in `main`: processing
one chunk (the `get_rt` / `get_fc` calls for it) and a `time.sleep(60)`. -/
inductive Event where
  | batch (chunk : List ℤ)
  | sleep60
deriving DecidableEq

/-- Python slice `student_ids[breakpoints[i] : breakpoints[i+1]]`. -/
def chunkAt (ids : List ℤ) (bps : List ℕ) (i : ℕ) : List ℤ :=
  (ids.drop (bps.getD i 0)).take (bps.getD (i + 1) 0 - bps.getD i 0)

/-- Chunks the outer loop of `main` slices out of the roster. -/
def chunksOf (ids : List ℤ) (step : ℕ) : List (List ℤ) :=
  (List.range ((separate_into_breakpoints ids.length step).length - 1)).map
    (chunkAt ids (separate_into_breakpoints ids.length step))

/-- Trace of `main`'s outer loop (lines 32-40): for each
`i in range(len(breakpoints) - 1)` process one chunk (the whole roster when it
fits within one step) and, whenever the roster size exceeds the chunk size,
execute `time.sleep(60)` at the end of the iteration body. -/
def mainLoopTrace (ids : List ℤ) (step : ℕ) : List Event :=
  ((List.range ((separate_into_breakpoints ids.length step).length - 1)).map
    (fun i =>
      [Event.batch (if ids.length ≤ step then ids
        else chunkAt ids (separate_into_breakpoints ids.length step) i)]
        ++ (if step < ids.length then [Event.sleep60] else []))).flatten

/-- C7 counterexample: with a roster of 3 and chunk size 2 the loop runs two
iterations over chunks `[0, 1]` and `[2]`, but the 60-second pause executes at
the end of every iteration, so a pause also trails the final batch — the
trace ends in `sleep60`, not in a batch, contradicting a pause occurring only
between successive batches. -/
theorem mainLoop_trailing_sleep :
    mainLoopTrace [0, 1, 2] 2
      = [Event.batch [0, 1], Event.sleep60, Event.batch [2], Event.sleep60] ∧
    (mainLoopTrace [0, 1, 2] 2).getLast? = some Event.sleep60 := by decide

/-- C7 amended: whenever the roster exceeds the chunk size, the orchestrator
runs one outer-loop iteration per chunk and pauses 60 seconds after every
chunk batch — between successive batches and once more after the final one;
with roster `[0, 1, 2]` and chunk size 2 this is two iterations over `[0, 1]`
and `[2]` with a pause between them and a trailing pause. -/
theorem mainLoop_pause_after_every_batch (ids : List ℤ) (step : ℕ)
    (hgt : step < ids.length) :
    mainLoopTrace ids step
      = ((chunksOf ids step).map
          (fun c => [Event.batch c, Event.sleep60])).flatten ∧
    mainLoopTrace [0, 1, 2] 2
      = [Event.batch [0, 1], Event.sleep60, Event.batch [2], Event.sleep60] := by
  constructor
  · rw [mainLoopTrace, chunksOf, List.map_map]
    congr 1
    apply List.map_congr_left
    intro i _
    rw [if_neg (not_le.mpr hgt), if_pos hgt]
    rfl
  · decide

/-- Witness for C7 amended: the pause-after-every-batch shape evaluated on
the roster `[0, 1, 2]` with chunk size 2. -/
theorem mainLoop_pause_after_every_batch_witness :
    mainLoopTrace [0, 1, 2] 2
      = ((chunksOf [0, 1, 2] 2).map
          (fun c => [Event.batch c, Event.sleep60])).flatten ∧
    mainLoopTrace [0, 1, 2] 2
      = [Event.batch [0, 1], Event.sleep60, Event.batch [2], Event.sleep60] :=
  mainLoop_pause_after_every_batch [0, 1, 2] 2 (by decide)

end AdbPublicHealth

